import Mathlib

/-!
Verification of the puppeteer-recorder code generator
(`src/code-generator/CodeGenerator.js`), shallowly embedded in Lean 4.

JavaScript strings become `String`, arrays become `List`, the dynamic
`value` field of an event record becomes the small universe `JSVal`,
exceptions become `Except String`, and the mutation of the compiler
instance during one `generate` call becomes explicit state passing over
`GenState`.
-/

/-- Universe of JavaScript values an event record's `value` field can hold:
`undefined`, a string, a number, or a `\x7b width, height \x7d` object
(the shape the recorder stores for `viewport*` events). -/
inductive JSVal where
  | undef : JSVal
  | str : String → JSVal
  | num : Int → JSVal
  | dims : Int → Int → JSVal
deriving DecidableEq

/-- Template-literal interpolation of a JavaScript value, as in a backtick
string: `undefined` prints as "undefined", an object as "[object Object]". -/
def JSVal.interp : JSVal → String
  | .undef => "undefined"
  | .str s => s
  | .num n => toString n
  | .dims _ _ => "[object Object]"

/-- Property access `v.width`: throws a TypeError when `v` is `undefined`,
yields `undefined` on values without that property, the number on the
dims object. -/
def JSVal.getWidth : JSVal → Except String JSVal
  | .undef => .error "TypeError: Cannot read property width of undefined"
  | .str _ => .ok .undef
  | .num _ => .ok .undef
  | .dims w _ => .ok (.num w)

/-- Property access `v.height`, same conventions as `JSVal.getWidth`. -/
def JSVal.getHeight : JSVal → Except String JSVal
  | .undef => .error "TypeError: Cannot read property height of undefined"
  | .str _ => .ok .undef
  | .num _ => .ok .undef
  | .dims _ h => .ok (.num h)

/-- One recorded event, the compiler's unit of input
(destructured at the top of `_parseEvents`). Absent string fields are
modelled as `""`, an absent `keyCode` as `none`, an absent or zero
`frameId` as `0` (both are falsy in the source's guards). -/
structure EventRecord where
  action : String := ""
  selector : String := ""
  value : JSVal := .undef
  href : String := ""
  keyCode : Option Int := none
  tagName : String := ""
  frameId : Nat := 0
  frameUrl : String := ""
  comments : String := ""
deriving DecidableEq

/-- One generated line (`Block.js` line object): a semantic `type` tag
(`none` for the untyped comment and blank lines), the literal statement
text, and the frame id stamped onto the line by its block. -/
structure Line where
  type : Option String := none
  value : String := ""
  frameId : Nat := 0
deriving DecidableEq

/-- Modelled from the spec: `Block.js` is imported by `CodeGenerator.js`
but is not among the provided sources. Per the spec, a Statement Block
owns an ordered sequence of Lines, is associated with a `frameId` at
construction (consulted only by the frame-declaration pass), and supports
insertion at head or tail; the frame-declaration pass in the provided
source reads `line.frameId`, so the block stamps its own frame id onto
each line it receives (an unset line frame id is falsy, i.e. `0`). -/
structure Block where
  frameId : Nat := 0
  lines : List Line := []
deriving DecidableEq

/-- Stamp the block's frame id onto a line whose own frame id is unset. -/
def Block.stamp (b : Block) (l : Line) : Line :=
  if l.frameId = 0 then { l with frameId := b.frameId } else l

/-- `new Block(frameId, line?)`. -/
def Block.make (frameId : Nat) (l : Option Line) : Block :=
  let b : Block := { frameId := frameId, lines := [] }
  match l with
  | some l => { b with lines := [b.stamp l] }
  | none => b

/-- `block.addLine(line)`: append at the tail. -/
def Block.addLine (b : Block) (l : Line) : Block :=
  { b with lines := b.lines ++ [b.stamp l] }

/-- `block.addLineToTop(line)`: insert at the head. -/
def Block.addLineToTop (b : Block) (l : Line) : Block :=
  { b with lines := b.stamp l :: b.lines }

/-- Resolved configuration (the shape of the module-level `defaults`
object and of `this._options`). -/
structure Options where
  wrapAsync : Bool
  headless : Bool
  waitForNavigation : Bool
  waitForSelectorOnClick : Bool
  blankLinesBetweenBlocks : Bool
  dataAttribute : String
  useRegexForDataAttribute : Bool
  customLineAfterClick : String
deriving DecidableEq

/-- A caller-supplied options object: every field may be absent. -/
structure PartialOptions where
  wrapAsync : Option Bool := none
  headless : Option Bool := none
  waitForNavigation : Option Bool := none
  waitForSelectorOnClick : Option Bool := none
  blankLinesBetweenBlocks : Option Bool := none
  dataAttribute : Option String := none
  useRegexForDataAttribute : Option Bool := none
  customLineAfterClick : Option String := none
deriving DecidableEq

/-- The module-level `defaults` object as initially written. -/
def defaults : Options :=
  { wrapAsync := true
    headless := true
    waitForNavigation := true
    waitForSelectorOnClick := true
    blankLinesBetweenBlocks := true
    dataAttribute := ""
    useRegexForDataAttribute := false
    customLineAfterClick := "" }

/-- `Object.assign(target, src)`: every field present on `src` overwrites
the corresponding field of `target`; the (mutated) target is returned.
The constructor runs `Object.assign(defaults, options)`, so the merged
object is simultaneously the instance's `_options` and the new value of
the shared module-level `defaults`. -/
def objectAssign (target : Options) (src : PartialOptions) : Options :=
  { wrapAsync := src.wrapAsync.getD target.wrapAsync
    headless := src.headless.getD target.headless
    waitForNavigation := src.waitForNavigation.getD target.waitForNavigation
    waitForSelectorOnClick := src.waitForSelectorOnClick.getD target.waitForSelectorOnClick
    blankLinesBetweenBlocks := src.blankLinesBetweenBlocks.getD target.blankLinesBetweenBlocks
    dataAttribute := src.dataAttribute.getD target.dataAttribute
    useRegexForDataAttribute := src.useRegexForDataAttribute.getD target.useRegexForDataAttribute
    customLineAfterClick := src.customLineAfterClick.getD target.customLineAfterClick }

/-- `const puppeteer = require('puppeteer');\n`. -/
def importPuppeteer : String := "const puppeteer = require('puppeteer');\n"

/-- Unwrapped header template. -/
def header : String :=
  "const browser = await puppeteer.launch()\nconst page = await browser.newPage()"

/-- Unwrapped footer template. -/
def footer : String := "await browser.close()"

/-- Async-wrapped header template. -/
def wrappedHeader : String :=
  "(async () => \x7b\n  const browser = await puppeteer.launch()\n  const page = await browser.newPage()\n"

/-- Async-wrapped footer template. -/
def wrappedFooter : String := "  await browser.close()\n\x7d)()"

/-- Replace the first occurrence of `pat` in a character list
(JavaScript `String.prototype.replace` with a string pattern replaces
only the first occurrence). -/
def replaceFirstChars (pat rep : List Char) : List Char → List Char
  | [] => []
  | c :: cs =>
    if pat.isPrefixOf (c :: cs) then rep ++ (c :: cs).drop pat.length
    else c :: replaceFirstChars pat rep cs

/-- `s.replace(pat, rep)` for string patterns: first occurrence only. -/
def replaceFirst (s pat rep : String) : String :=
  ⟨replaceFirstChars pat.data rep.data s.data⟩

/-- `_getHeader()`: choose the wrapped or plain header, and rewrite the
launch call when `headless` is off. -/
def getHeader (opts : Options) : String :=
  let hdr := if opts.wrapAsync then wrappedHeader else header
  if opts.headless then hdr
  else replaceFirst hdr "launch()" "launch(\x7b headless: false \x7d)"

/-- `_getFooter()`. -/
def getFooter (opts : Options) : String :=
  if opts.wrapAsync then wrappedFooter else footer

/-- The per-call mutable fields of a `CodeGenerator` instance other than
`_blocks`: `_frame`, `_frameId`, `_allFrames`, `_hasNavigation`. The
`_blocks` accumulator is threaded separately alongside this state (the
event loop only ever appends to it, and no handler reads it).
`_allFrames` is a JavaScript object keyed by frame ids; it is modelled as
an insertion-ordered association list (only membership, lookup,
overwrite and delete are ever used). -/
structure GenState where
  frame : String := "page"
  frameId : Nat := 0
  allFrames : List (Nat × String) := []
  hasNavigation : Bool := false
deriving DecidableEq

/-- The state a freshly constructed generator starts from. -/
def initState : GenState := {}

/-- `allFrames[k]`, as an `Option`. -/
def framesLookup (m : List (Nat × String)) (k : Nat) : Option String :=
  (m.find? (fun p => p.1 = k)).map (fun p => p.2)

/-- `allFrames[k] = v`: overwrite in place when the key exists, append
otherwise (JavaScript object insertion order). -/
def framesSet (m : List (Nat × String)) (k : Nat) (v : String) : List (Nat × String) :=
  if m.any (fun p => p.1 = k) then
    m.map (fun p => if p.1 = k then (k, v) else p)
  else m ++ [(k, v)]

/-- `delete allFrames[k]`. -/
def framesDelete (m : List (Nat × String)) (k : Nat) : List (Nat × String) :=
  m.filter (fun p => p.1 ≠ k)

/-- `_setFrames(frameId, frameUrl)`: a truthy non-zero frame id becomes
the current frame `frame_<id>` and its url is recorded (overwriting any
earlier url for that id); otherwise the current frame resets to `page`. -/
def setFrames (s : GenState) (frameId : Nat) (frameUrl : String) : GenState :=
  if frameId ≠ 0 then
    { s with frameId := frameId
             frame := "frame_" ++ toString frameId
             allFrames := framesSet s.allFrames frameId frameUrl }
  else
    { s with frameId := 0, frame := "page" }

/-- `_handleSubmit(selector, value)`. -/
def handleSubmit (st : GenState) (selector : String) : Block :=
  Block.make st.frameId (some
    { type := some "change"
      value := "await " ++ st.frame ++ ".$eval('" ++ selector ++ "', form => form.submit())" })

/-- `_handleKeyDown(selector, value, keyCode)`. -/
def handleKeyDown (st : GenState) (selector : String) (value : JSVal) : Block :=
  (Block.make st.frameId none).addLine
    { type := some "keydown"
      value := "await " ++ st.frame ++ ".type('" ++ selector ++ "', '" ++ value.interp ++ "')" }

/-- `_handleClick(selector)`. -/
def handleClick (opts : Options) (st : GenState) (selector : String) : Block :=
  let b := Block.make st.frameId none
  let b := if opts.waitForSelectorOnClick then
      b.addLine { type := some "click"
                  value := "await " ++ st.frame ++ ".waitForSelector('" ++ selector ++ "')" }
    else b
  let b := b.addLine { type := some "click"
                       value := "await " ++ st.frame ++ ".click('" ++ selector ++ "')" }
  if opts.customLineAfterClick ≠ "" then
    b.addLine { type := some "click", value := opts.customLineAfterClick }
  else b

/-- `_handleSelectChange(selector, value)`. -/
def handleSelectChange (st : GenState) (selector : String) (value : JSVal) : Block :=
  Block.make st.frameId (some
    { type := some "change"
      value := "await " ++ st.frame ++ ".select('" ++ selector ++ "', '" ++ value.interp ++ "')" })

/-- `_handleChange(selector, value)`. -/
def handleChange (st : GenState) (selector : String) (value : JSVal) : Block :=
  Block.make st.frameId (some
    { type := some "change"
      value := "await " ++ st.frame ++ ".type('" ++ selector ++ "', '" ++ value.interp ++ "')" })

/-- `_handleGoto(href)`. -/
def handleGoto (st : GenState) (href : String) : Block :=
  Block.make st.frameId (some
    { type := some "goto"
      value := "await " ++ st.frame ++ ".goto('" ++ href ++ "')" })

/-- `_handleViewport(width, height)`; its arguments are the already
evaluated `value.width` and `value.height`. -/
def handleViewport (st : GenState) (width height : JSVal) : Block :=
  Block.make st.frameId (some
    { type := some "viewport"
      value := "await " ++ st.frame ++ ".setViewport(\x7b width: " ++ width.interp
        ++ ", height: " ++ height.interp ++ " \x7d)" })

/-- `_handleWaitForNavigation()`: always returns a block; it carries the
`await navigationPromise` line only when navigation waiting is enabled. -/
def handleWaitForNavigation (opts : Options) (st : GenState) : Block :=
  let b := Block.make st.frameId none
  if opts.waitForNavigation then
    b.addLine { type := some "navigation", value := "await navigationPromise" }
  else b

/-- `_handleComments(block, comments)`: a truthy (non-empty) comment is
prepended to the block as one comment line. -/
def handleComments (b : Block) (comments : String) : Block :=
  if comments ≠ "" then b.addLineToTop { value := "/** " ++ comments ++ " */" }
  else b

/-- The `switch (action)` of the `_parseEvents` loop: at most one new
block, from the frame-updated state `st`. The only failure is the
`value.width` / `value.height` access of the `viewport*` case, which
throws when `value` is `undefined`. -/
def dispatchAction (opts : Options) (st : GenState) (e : EventRecord) :
    Except String (Option Block) :=
  if e.action = "submit" then
    .ok (if e.tagName = "FORM" then some (handleSubmit st e.selector) else none)
  else if e.action = "keydown" then
    .ok (if e.keyCode = some 9 then some (handleKeyDown st e.selector e.value) else none)
  else if e.action = "click" then
    .ok (some (handleClick opts st e.selector))
  else if e.action = "change" then
    .ok (some (if e.tagName = "SELECT" then handleSelectChange st e.selector e.value
      else handleChange st e.selector e.value))
  else if e.action = "goto*" then
    .ok (some (handleGoto st e.href))
  else if e.action = "viewport*" then
    match e.value.getWidth, e.value.getHeight with
    | .ok w, .ok h => .ok (some (handleViewport st w h))
    | .error msg, _ => .error msg
    | _, .error msg => .error msg
  else if e.action = "navigation*" then
    .ok (some (handleWaitForNavigation opts st))
  else
    .ok none

/-- One iteration of the `_parseEvents` loop, split into its two effects:
the updated state (frame tracking, and the `_hasNavigation` flag on a
`navigation*` event) and the optional new block, already carrying its
comment line. -/
def stepEvent (opts : Options) (st : GenState) (e : EventRecord) :
    Except String (GenState × Option Block) :=
  let st := setFrames st e.frameId e.frameUrl
  (dispatchAction opts st e).map (fun ob =>
    (if e.action = "navigation*" then { st with hasNavigation := true } else st,
     ob.map (fun b => handleComments b e.comments)))

/-- One iteration of the `_parseEvents` loop including the
`this._blocks.push(...)` of the produced block: the accumulator pairs
the frame-tracking state with the `_blocks` list. -/
def processOneEvent (opts : Options) (acc : GenState × List Block) (e : EventRecord) :
    Except String (GenState × List Block) := do
  let (st', ob) ← stepEvent opts acc.1 e
  pure (st', acc.2 ++ ob.toList)

/-- The event loop of `_parseEvents` from an arbitrary intermediate
accumulator. -/
def processEventsFrom (opts : Options) (acc : GenState × List Block) :
    List EventRecord → Except String (GenState × List Block)
  | [] => .ok acc
  | e :: es => do
    let acc' ← processOneEvent opts acc e
    processEventsFrom opts acc' es

/-- The whole event loop of `_parseEvents`, starting from a given
frame-tracking state and an empty `_blocks` list. -/
def processEvents (opts : Options) (st : GenState) (events : List EventRecord) :
    Except String (GenState × List Block) :=
  processEventsFrom opts (st, []) events

/-- Just the blocks contributed by a list of events, in event order
(the loop appends each produced block, so the final `_blocks` is
exactly this list). -/
def blocksOf (opts : Options) (st : GenState) : List EventRecord → Except String (List Block)
  | [] => .ok []
  | e :: es => do
    let (st', ob) ← stepEvent opts st e
    let rest ← blocksOf opts st' es
    .ok (ob.toList ++ rest)

/-- The navigation-promise declaration block unshifted after the loop. -/
def navPromiseBlock (frameId : Nat) : Block :=
  Block.make frameId (some
    { type := some "navigation-promise"
      value := "const navigationPromise = page.waitForNavigation()" })

/-- After the loop: when a navigation event was seen and navigation
waiting is enabled, the declaration block is unshifted to the front of
the `_blocks` list (the block is built from the loop's final
`_frameId`). -/
def addNavDeclaration (opts : Options) (st : GenState) (bs : List Block) : List Block :=
  if st.hasNavigation && opts.waitForNavigation then
    navPromiseBlock st.frameId :: bs
  else bs

/-- The `let frames = await page.frames()` declaration line. -/
def fetchFramesLine : Line :=
  { type := some "frame-set", value := "let frames = await page.frames()" }

/-- The `const frame_<id> = frames.find(...)` declaration line. -/
def resolveFrameLine (fid : Nat) (url : String) : Line :=
  { type := some "frame-set"
    value := "const frame_" ++ toString fid ++ " = frames.find(f => f.url() === '" ++ url ++ "')" }

/-- The inner scan of `_postProcessSetFrames`: the first line of the block
whose `frameId` is truthy and still a key of the pending map. -/
def findPendingFrame (af : List (Nat × String)) (lines : List Line) : Option Nat :=
  (lines.find? (fun l => l.frameId ≠ 0 && (framesLookup af l.frameId).isSome)).map
    (fun l => l.frameId)

/-- `_postProcessSetFrames`, with the list of frame ids it declared
returned alongside the rewritten blocks. For each block in order, on the
first line whose frame id is pending, the resolve line and then the
fetch line are inserted at the block's head (so the fetch line ends up
first) and the id is deleted from the pending map; the scan of that
block then stops (`break`) and the loop moves to the next block. -/
def setFramesPassAux (af : List (Nat × String)) :
    List Block → List Block × List Nat
  | [] => ([], [])
  | b :: bs =>
    match findPendingFrame af b.lines with
    | some fid =>
      ((b.addLineToTop (resolveFrameLine fid ((framesLookup af fid).getD ""))).addLineToTop
          fetchFramesLine :: (setFramesPassAux (framesDelete af fid) bs).1,
        fid :: (setFramesPassAux (framesDelete af fid) bs).2)
    | none =>
      (b :: (setFramesPassAux af bs).1, (setFramesPassAux af bs).2)

/-- The blocks produced by `_postProcessSetFrames`. -/
def setFramesPass (af : List (Nat × String)) (bs : List Block) : List Block :=
  (setFramesPassAux af bs).1

/-- The frame ids `_postProcessSetFrames` inserted declarations for, in
insertion order. -/
def setFramesPassIds (af : List (Nat × String)) (bs : List Block) : List Nat :=
  (setFramesPassAux af bs).2

/-- The empty block spliced in by `_postProcessAddBlankLines`
(`new Block()` with one untyped empty line). -/
def blankBlock : Block :=
  (Block.make 0 none).addLine { type := none, value := "" }

/-- `_postProcessAddBlankLines`: the loop splices a blank block at
positions 0, 2, 4, ... while the index stays within the (growing) list,
which interleaves a blank block before every original block and appends
one after the last. -/
def interleaveBlanks : List Block → List Block
  | [] => [blankBlock]
  | b :: bs => blankBlock :: b :: interleaveBlanks bs

/-- `_postProcess()`: the frame-declaration pass runs when the pending
map `_allFrames` is non-empty (the ids it deletes from the map are not
read again afterwards), the blank-line pass when the option is on and at
least one block exists. -/
def postProcess (opts : Options) (af : List (Nat × String)) (bs : List Block) : List Block :=
  let bs := if af.length > 0 then setFramesPass af bs else bs
  if opts.blankLinesBetweenBlocks && bs.length > 0 then interleaveBlanks bs
  else bs

/-- The block list `_parseEvents` finally linearizes: event loop, then
the navigation-promise unshift, then the post-processing passes. -/
def pipelineBlocks (opts : Options) (events : List EventRecord) :
    Except String (List Block) :=
  (processEvents opts initState events).map
    (fun p => postProcess opts p.1.allFrames (addNavDeclaration opts p.1 p.2))

/-- The values of all lines of a block list, in order. -/
def lineValues (bs : List Block) : List String :=
  (bs.map (fun b => b.lines.map (fun l => l.value))).flatten

/-- The linearization loop at the end of `_parseEvents`: every line is
emitted as `indent + line.value + newline`, with a two-space indent
exactly when the output is async-wrapped. -/
def renderLines (opts : Options) (bs : List Block) : String :=
  let indent := if opts.wrapAsync then "  " else ""
  String.join ((lineValues bs).map (fun v => indent ++ v ++ "\n"))

/-- `_parseEvents(events)`: the body text returned to `generate`. -/
def parseEvents (opts : Options) (events : List EventRecord) : Except String String :=
  (pipelineBlocks opts events).map (renderLines opts)

/-- `generate(events)`: import + header + body + footer; an exception
thrown while parsing events propagates out. -/
def generate (opts : Options) (events : List EventRecord) : Except String String := do
  let body ← parseEvents opts events
  pure (importPuppeteer ++ getHeader opts ++ body ++ getFooter opts)

/-- A block is non-blank when at least one of its lines has non-empty
statement text: exactly the blocks that contribute visible output. -/
def nonBlank (b : Block) : Bool :=
  b.lines.any (fun l => l.value ≠ "")

/-- The events whose dispatched block carries visible text: the guarded
`submit` and `keydown` cases, the always-emitting `click`, `change`,
`goto*` and `viewport*` cases, and `navigation*` when navigation waiting
is enabled or the event carries a comment (the `await` line is omitted
when waiting is disabled, but a comment still makes the block visible). -/
def producesNonBlankBlock (opts : Options) (e : EventRecord) : Bool :=
  if e.action = "submit" then e.tagName == "FORM"
  else if e.action = "keydown" then e.keyCode == some 9
  else if e.action = "click" then true
  else if e.action = "change" then true
  else if e.action = "goto*" then true
  else if e.action = "viewport*" then true
  else if e.action = "navigation*" then opts.waitForNavigation || !(e.comments == "")
  else false

/-- A plain top-level click on `#go` with an empty comment. -/
def clickGoEvent : EventRecord := { action := "click", selector := "#go" }

/-- A bare `navigation*` control event. -/
def navigationEvent : EventRecord := { action := "navigation*" }

/-- A Tab keydown typing "x" into `#q`. -/
def kdTabEvent : EventRecord :=
  { action := "keydown", selector := "#q", value := .str "x", keyCode := some 9 }

/-- A click recorded inside the frame `fid` at `url`. -/
def frameClickEvent (sel : String) (fid : Nat) (url : String) : EventRecord :=
  { action := "click", selector := sel, frameId := fid, frameUrl := url }

/-- The block a click on `sel` produces when the current frame variable
is `frame` with id `fid`, under the default wait-on-click setting. -/
def clickBlockOf (frame sel : String) (fid : Nat) : Block :=
  { frameId := fid
    lines := [{ type := some "click"
                value := "await " ++ frame ++ ".waitForSelector('" ++ sel ++ "')"
                frameId := fid },
              { type := some "click"
                value := "await " ++ frame ++ ".click('" ++ sel ++ "')"
                frameId := fid }] }

/-- The defaults with the blank-line pass turned off. -/
def noBlankOpts : Options := { defaults with blankLinesBetweenBlocks := false }

/-- The frame-tracking state after one event from frame 3 at `url`. -/
def frame3State (url : String) : GenState :=
  { frame := "frame_3", frameId := 3, allFrames := [(3, url)], hasNavigation := false }

/-- The block-producing dispatch rules exactly as the specification
words them: `submit` on FORM, Tab `keydown`, `click`, `change`,
`goto*`, `viewport*`, and `navigation*` only when navigation waiting is
enabled. Stated from the spec, to be compared with the behaviour of the
code (`producesNonBlankBlock` and the hoisted declaration block). -/
def specProducesBlock (opts : Options) (e : EventRecord) : Bool :=
  if e.action = "submit" then e.tagName == "FORM"
  else if e.action = "keydown" then e.keyCode == some 9
  else if e.action = "click" then true
  else if e.action = "change" then true
  else if e.action = "goto*" then true
  else if e.action = "viewport*" then true
  else if e.action = "navigation*" then opts.waitForNavigation
  else false

/-! ### Helper lemmas about the `_allFrames` association map -/

theorem framesLookup_nil (k : Nat) : framesLookup [] k = none := rfl

theorem framesLookup_cons (p : Nat × String) (m : List (Nat × String)) (k : Nat) :
    framesLookup (p :: m) k = if p.1 = k then some p.2 else framesLookup m k := by
  by_cases h : p.1 = k <;> simp [framesLookup, List.find?_cons, h]

theorem framesLookup_map_upd (m : List (Nat × String)) (k : Nat) (v : String)
    (k' : Nat) (h : k' ≠ k) :
    framesLookup (m.map (fun p => if p.1 = k then (k, v) else p)) k' = framesLookup m k' := by
  induction m with
  | nil => rfl
  | cons p t ih =>
    by_cases hp : p.1 = k
    · simp [framesLookup_cons, hp, ih, Ne.symm h]
    · simp [framesLookup_cons, hp, ih]

theorem framesLookup_map_self (t : List (Nat × String)) (k : Nat) (v : String)
    (ht : t.any (fun p => p.1 = k)) :
    framesLookup (t.map (fun p => if p.1 = k then (k, v) else p)) k = some v := by
  induction t with
  | nil => simp at ht
  | cons p t ih =>
    by_cases hp : p.1 = k
    · simp [framesLookup_cons, hp]
    · simp only [List.any_cons, decide_eq_true_eq, Bool.or_eq_true, hp, false_or] at ht
      simp [framesLookup_cons, hp, ih ht]

theorem framesLookup_append_right (t : List (Nat × String)) (k : Nat) (v : String)
    (ht : ¬ t.any (fun p => p.1 = k)) :
    framesLookup (t ++ [(k, v)]) k = some v := by
  induction t with
  | nil => simp [framesLookup_cons]
  | cons p t ih =>
    simp only [List.any_cons, decide_eq_true_eq, Bool.or_eq_true] at ht
    push_neg at ht
    rw [List.cons_append, framesLookup_cons, if_neg ht.1]
    exact ih (by simpa using ht.2)

theorem framesLookup_set_self (m : List (Nat × String)) (k : Nat) (v : String) :
    framesLookup (framesSet m k v) k = some v := by
  unfold framesSet
  by_cases ha : m.any (fun p => p.1 = k)
  · rw [if_pos (by simpa using ha)]
    exact framesLookup_map_self m k v ha
  · rw [if_neg (by simpa using ha)]
    exact framesLookup_append_right m k v ha

theorem framesLookup_set_ne (m : List (Nat × String)) (k : Nat) (v : String)
    (k' : Nat) (h : k' ≠ k) :
    framesLookup (framesSet m k v) k' = framesLookup m k' := by
  unfold framesSet
  by_cases ha : m.any (fun p => decide (p.1 = k))
  · rw [if_pos (by simpa using ha), framesLookup_map_upd m k v k' h]
  · rw [if_neg (by simpa using ha)]
    induction m with
    | nil => simp [framesLookup_nil, framesLookup_cons, Ne.symm h]
    | cons p t ih =>
      simp only [List.any_cons, decide_eq_true_eq, Bool.or_eq_true] at ha
      rw [List.cons_append, framesLookup_cons, framesLookup_cons]
      by_cases hpk : p.1 = k'
      · rw [if_pos hpk, if_pos hpk]
      · rw [if_neg hpk, if_neg hpk]
        exact ih (by simpa using fun hc => ha (Or.inr hc))

theorem framesLookup_delete (m : List (Nat × String)) (k x : Nat) :
    framesLookup (framesDelete m k) x = if x = k then none else framesLookup m x := by
  induction m with
  | nil => simp [framesDelete, framesLookup_nil]
  | cons p t ih =>
    by_cases hp : p.1 = k
    · rw [show framesDelete (p :: t) k = framesDelete t k by simp [framesDelete, hp]]
      rw [ih, framesLookup_cons]
      by_cases hx : x = k
      · simp [hx]
      · simp [hx, show p.1 ≠ x from fun hc => hx (hc.symm.trans hp)]
    · rw [show framesDelete (p :: t) k = p :: framesDelete t k by simp [framesDelete, hp]]
      rw [framesLookup_cons, ih]
      by_cases hpx : p.1 = x
      · have hxk : x ≠ k := fun hc => hp (hpx.trans hc)
        simp [framesLookup_cons, hpx, hxk]
      · simp [framesLookup_cons, hpx]

/-! ### Helper lemmas about `setFrames` and `stepEvent` -/

theorem setFrames_hasNavigation (st : GenState) (fid : Nat) (url : String) :
    (setFrames st fid url).hasNavigation = st.hasNavigation := by
  unfold setFrames
  split <;> rfl

theorem setFrames_pos (st : GenState) (fid : Nat) (url : String) (h : fid ≠ 0) :
    (setFrames st fid url).frame = "frame_" ++ toString fid ∧
    (setFrames st fid url).frameId = fid ∧
    (setFrames st fid url).allFrames = framesSet st.allFrames fid url := by
  unfold setFrames
  rw [if_pos h]
  exact ⟨rfl, rfl, rfl⟩

theorem setFrames_zero (st : GenState) (url : String) :
    (setFrames st 0 url).frame = "page" ∧
    (setFrames st 0 url).frameId = 0 ∧
    (setFrames st 0 url).allFrames = st.allFrames := by
  unfold setFrames
  rw [if_neg (by simp)]
  exact ⟨rfl, rfl, rfl⟩

/-- A successful `stepEvent` returns the frame-updated state, with the
navigation flag raised exactly on `navigation*`, paired with the
commented dispatch result. -/
theorem stepEvent_ok_iff (opts : Options) (st : GenState) (e : EventRecord)
    (st' : GenState) (ob : Option Block) :
    stepEvent opts st e = .ok (st', ob) ↔
      ∃ ob₀, dispatchAction opts (setFrames st e.frameId e.frameUrl) e = .ok ob₀ ∧
        st' = (if e.action = "navigation*"
          then { setFrames st e.frameId e.frameUrl with hasNavigation := true }
          else setFrames st e.frameId e.frameUrl) ∧
        ob = ob₀.map (fun b => handleComments b e.comments) := by
  unfold stepEvent
  cases hd : dispatchAction opts (setFrames st e.frameId e.frameUrl) e with
  | error msg => simp [Except.map, hd]
  | ok ob₀ =>
    simp only [Except.map, hd, Except.ok.injEq, Prod.mk.injEq]
    constructor
    · rintro ⟨h1, h2⟩
      exact ⟨ob₀, rfl, h1.symm, h2.symm⟩
    · rintro ⟨ob₁, hob₁, h1, h2⟩
      cases hob₁
      exact ⟨h1.symm, h2.symm⟩

theorem stepEvent_state_eq (opts : Options) (st : GenState) (e : EventRecord)
    (st' : GenState) (ob : Option Block) (h : stepEvent opts st e = .ok (st', ob)) :
    st' = if e.action = "navigation*"
      then { setFrames st e.frameId e.frameUrl with hasNavigation := true }
      else setFrames st e.frameId e.frameUrl := by
  obtain ⟨ob₀, _, h1, _⟩ := (stepEvent_ok_iff opts st e st' ob).1 h
  exact h1

theorem stepEvent_hasNavigation (opts : Options) (st : GenState) (e : EventRecord)
    (st' : GenState) (ob : Option Block) (h : stepEvent opts st e = .ok (st', ob)) :
    st'.hasNavigation = (st.hasNavigation || e.action == "navigation*") := by
  rw [stepEvent_state_eq opts st e st' ob h]
  by_cases hn : e.action = "navigation*"
  · simp [hn]
  · simp [hn, setFrames_hasNavigation]

theorem stepEvent_allFrames (opts : Options) (st : GenState) (e : EventRecord)
    (st' : GenState) (ob : Option Block) (h : stepEvent opts st e = .ok (st', ob)) :
    st'.allFrames = (setFrames st e.frameId e.frameUrl).allFrames := by
  rw [stepEvent_state_eq opts st e st' ob h]
  split <;> rfl

theorem stepEvent_frame (opts : Options) (st : GenState) (e : EventRecord)
    (st' : GenState) (ob : Option Block) (h : stepEvent opts st e = .ok (st', ob)) :
    st'.frame = (setFrames st e.frameId e.frameUrl).frame ∧
    st'.frameId = (setFrames st e.frameId e.frameUrl).frameId := by
  rw [stepEvent_state_eq opts st e st' ob h]
  split <;> exact ⟨rfl, rfl⟩

/-- `dispatchAction` only throws on a `viewport*` event whose `value` is
`undefined`. -/
theorem dispatchAction_isOk (opts : Options) (st : GenState) (e : EventRecord)
    (h : e.action = "viewport*" → e.value ≠ JSVal.undef) :
    ∃ ob, dispatchAction opts st e = .ok ob := by
  unfold dispatchAction
  by_cases h6 : e.action = "viewport*"
  · rw [if_neg (by rw [h6]; simp), if_neg (by rw [h6]; simp), if_neg (by rw [h6]; simp),
      if_neg (by rw [h6]; simp), if_neg (by rw [h6]; simp), if_pos h6]
    rcases hv : e.value with _ | s | n | ⟨w, ht⟩
    · exact absurd hv (h h6)
    all_goals exact ⟨_, rfl⟩
  · rw [if_neg h6]
    split_ifs <;> exact ⟨_, rfl⟩

/-- `stepEvent` only throws on a `viewport*` event whose `value` is
`undefined`. -/
theorem stepEvent_isOk (opts : Options) (st : GenState) (e : EventRecord)
    (h : e.action = "viewport*" → e.value ≠ JSVal.undef) :
    ∃ p, stepEvent opts st e = .ok p := by
  obtain ⟨ob, hob⟩ := dispatchAction_isOk opts (setFrames st e.frameId e.frameUrl) e h
  unfold stepEvent
  simp only [hob, Except.map]
  exact ⟨_, rfl⟩

/-- Events with an unrecognized action, a `submit` on a non-FORM tag, or
a `keydown` with a key code other than 9 update the frame-tracking state
but produce no block. -/
theorem stepEvent_skip (opts : Options) (st : GenState) (e : EventRecord)
    (h : (e.action ∉ ["submit", "keydown", "click", "change", "goto*", "viewport*", "navigation*"]) ∨
      (e.action = "submit" ∧ e.tagName ≠ "FORM") ∨
      (e.action = "keydown" ∧ e.keyCode ≠ some 9)) :
    stepEvent opts st e = .ok (setFrames st e.frameId e.frameUrl, none) := by
  have hnav : e.action ≠ "navigation*" := by
    rcases h with h | ⟨ha, _⟩ | ⟨ha, _⟩
    · exact fun hc => h (by rw [hc]; simp)
    · rw [ha]; decide
    · rw [ha]; decide
  have hd : dispatchAction opts (setFrames st e.frameId e.frameUrl) e = .ok none := by
    unfold dispatchAction
    rcases h with h | ⟨ha, ht⟩ | ⟨ha, hk⟩
    · simp only [List.mem_cons, List.not_mem_nil, or_false] at h
      push_neg at h
      obtain ⟨n1, n2, n3, n4, n5, n6, n7⟩ := h
      rw [if_neg n1, if_neg n2, if_neg n3, if_neg n4, if_neg n5, if_neg n6, if_neg n7]
    · rw [if_pos ha, if_neg ht]
    · rw [if_neg (by rw [ha]; decide), if_pos ha, if_neg hk]
  unfold stepEvent
  simp only [hd, Except.map]
  rw [if_neg hnav]
  rfl

/-! ### Helper lemmas about the event loop -/

/-- The `_blocks` list built by the loop is the starting list followed by
the blocks of the processed events, in event order. -/
theorem processEventsFrom_blocks (opts : Options) :
    ∀ (es : List EventRecord) (st : GenState) (bs : List Block)
      (st' : GenState) (bs' : List Block),
      processEventsFrom opts (st, bs) es = .ok (st', bs') →
      ∃ ebs, blocksOf opts st es = .ok ebs ∧ bs' = bs ++ ebs := by
  intro es
  induction es with
  | nil =>
    intro st bs st' bs' h
    cases h
    exact ⟨[], rfl, by simp⟩
  | cons e es ih =>
    intro st bs st' bs' h
    unfold processEventsFrom processOneEvent at h
    cases hse : stepEvent opts st e with
    | error msg => rw [hse] at h; cases h
    | ok p =>
      obtain ⟨st₁, ob⟩ := p
      rw [hse] at h
      have h' : processEventsFrom opts (st₁, bs ++ ob.toList) es = .ok (st', bs') := h
      obtain ⟨ebs, h1, h2⟩ := ih st₁ (bs ++ ob.toList) st' bs' h'
      refine ⟨ob.toList ++ ebs, ?_, by simp [h2]⟩
      have hgoal : (do
          let rest ← blocksOf opts st₁ es
          Except.ok (ob.toList ++ rest) : Except String (List Block)) =
          Except.ok (ob.toList ++ ebs) := by
        rw [h1]
        rfl
      unfold blocksOf
      rw [hse]
      exact hgoal

/-- The navigation flag after the loop: raised exactly when it was
already raised or some processed event is a `navigation*`. -/
theorem processEventsFrom_hasNavigation (opts : Options) :
    ∀ (es : List EventRecord) (st : GenState) (bs : List Block)
      (st' : GenState) (bs' : List Block),
      processEventsFrom opts (st, bs) es = .ok (st', bs') →
      st'.hasNavigation =
        (st.hasNavigation || es.any (fun e => e.action == "navigation*")) := by
  intro es
  induction es with
  | nil =>
    intro st bs st' bs' h
    cases h
    simp
  | cons e es ih =>
    intro st bs st' bs' h
    unfold processEventsFrom processOneEvent at h
    cases hse : stepEvent opts st e with
    | error msg => rw [hse] at h; cases h
    | ok p =>
      obtain ⟨st₁, ob⟩ := p
      rw [hse] at h
      have h' : processEventsFrom opts (st₁, bs ++ ob.toList) es = .ok (st', bs') := h
      rw [ih st₁ (bs ++ ob.toList) st' bs' h',
        stepEvent_hasNavigation opts st e st₁ ob hse]
      simp [List.any_cons, Bool.or_assoc]

/-- The pending frame-URL map after the loop: a non-zero frame id maps to
the `frameUrl` of the last processed event carrying that id (the loop
overwrites the url on every occurrence), and is untouched otherwise. -/
theorem processEventsFrom_allFrames (opts : Options) :
    ∀ (es : List EventRecord) (st : GenState) (bs : List Block)
      (st' : GenState) (bs' : List Block),
      processEventsFrom opts (st, bs) es = .ok (st', bs') →
      ∀ fid : Nat, fid ≠ 0 →
        framesLookup st'.allFrames fid =
          match (es.filter (fun e => e.frameId == fid)).getLast? with
          | some e => some e.frameUrl
          | none => framesLookup st.allFrames fid := by
  intro es
  induction es with
  | nil =>
    intro st bs st' bs' h fid _
    cases h
    rfl
  | cons e es ih =>
    intro st bs st' bs' h fid hfid
    unfold processEventsFrom processOneEvent at h
    cases hse : stepEvent opts st e with
    | error msg => rw [hse] at h; cases h
    | ok p =>
      obtain ⟨st₁, ob⟩ := p
      rw [hse] at h
      have h' : processEventsFrom opts (st₁, bs ++ ob.toList) es = .ok (st', bs') := h
      have hrec := ih st₁ (bs ++ ob.toList) st' bs' h' fid hfid
      have haf : framesLookup st₁.allFrames fid =
          if e.frameId = fid then some e.frameUrl else framesLookup st.allFrames fid := by
        rw [stepEvent_allFrames opts st e st₁ ob hse]
        by_cases hef : e.frameId = 0
        · rw [hef, (setFrames_zero st e.frameUrl).2.2,
            if_neg (show ¬ ((0 : Nat) = fid) from fun hc => hfid hc.symm)]
        · rw [(setFrames_pos st e.frameId e.frameUrl hef).2.2]
          by_cases heq : e.frameId = fid
          · rw [if_pos heq, heq, framesLookup_set_self]
          · rw [if_neg heq, framesLookup_set_ne _ _ _ _ (fun hc => heq hc.symm)]
      rw [hrec, List.filter_cons]
      by_cases heq : e.frameId = fid
      · rw [if_pos (by simpa using heq)]
        cases hfe : (es.filter (fun e => e.frameId == fid)).getLast? with
        | some e' =>
          cases hfl : es.filter (fun e => e.frameId == fid) with
          | nil => rw [hfl] at hfe; simp at hfe
          | cons x t =>
            rw [hfl] at hfe
            rw [List.getLast?_cons_cons, hfe]
        | none =>
          rw [haf, if_pos heq]
          cases hfl : es.filter (fun e => e.frameId == fid) with
          | nil => rfl
          | cons x t => rw [hfl] at hfe; simp at hfe
      · rw [if_neg (by simpa using heq)]
        cases hfe : (es.filter (fun e => e.frameId == fid)).getLast? with
        | some e' => rfl
        | none => rw [haf, if_neg heq]

/-! ### Blank and non-blank blocks -/

theorem append_ne_empty (s t : String) (h : s ≠ "") : s ++ t ≠ "" := by
  intro hc
  apply h
  have hlen := congrArg String.length hc
  rw [String.length_append] at hlen
  simp only [String.length_empty] at hlen
  have hs : s.length = 0 := Nat.eq_zero_of_add_eq_zero_right hlen
  have hdata : s.data = [] := List.length_eq_zero.mp hs
  cases s
  simp only at hdata
  rw [hdata]

theorem nonBlank_of_mem (b : Block) (l : Line) (hl : l ∈ b.lines) (h : l.value ≠ "") :
    nonBlank b = true := by
  simp only [nonBlank, List.any_eq_true, decide_eq_true_eq]
  exact ⟨l, hl, h⟩

/-- The stamp only changes the frame id of a line, never its text. -/
theorem stamp_value (b : Block) (l : Line) : (b.stamp l).value = l.value := by
  unfold Block.stamp
  split <;> rfl

theorem nonBlank_make_some (fid : Nat) (l : Line) (h : l.value ≠ "") :
    nonBlank (Block.make fid (some l)) = true := by
  refine nonBlank_of_mem _ (Block.stamp { frameId := fid, lines := [] } l) ?_ ?_
  · simp [Block.make]
  · rw [stamp_value]
    exact h

theorem nonBlank_addLine (b : Block) (l : Line) (h : l.value ≠ "") :
    nonBlank (b.addLine l) = true := by
  refine nonBlank_of_mem _ (b.stamp l) ?_ ?_
  · simp [Block.addLine]
  · rw [stamp_value]
    exact h

/-- `handleComments` leaves a non-blank block non-blank, and turns a
blank block non-blank exactly when the comment is non-empty. -/
theorem nonBlank_handleComments (b : Block) (c : String) :
    nonBlank (handleComments b c) = (nonBlank b || !(c == "")) := by
  unfold handleComments
  by_cases hc : c = ""
  · simp [hc]
  · rw [if_pos hc]
    rw [show (!(c == "")) = true by simp [hc]]
    rw [Bool.or_true]
    refine nonBlank_of_mem _ (Block.stamp b { value := "/** " ++ c ++ " */" }) ?_ ?_
    · simp [Block.addLineToTop]
    · rw [stamp_value]
      apply append_ne_empty
      apply append_ne_empty
      decide

/-- The lines of a click block, in order: the optional wait line, the
click line, the optional custom line. -/
theorem handleClick_lines (opts : Options) (st : GenState) (sel : String) :
    (handleClick opts st sel).lines =
      (if opts.waitForSelectorOnClick then
        [{ type := some "click"
           value := "await " ++ st.frame ++ ".waitForSelector('" ++ sel ++ "')"
           frameId := st.frameId }] else []) ++
      [{ type := some "click"
         value := "await " ++ st.frame ++ ".click('" ++ sel ++ "')"
         frameId := st.frameId }] ++
      (if opts.customLineAfterClick ≠ "" then
        [{ type := some "click"
           value := opts.customLineAfterClick
           frameId := st.frameId }] else []) := by
  unfold handleClick Block.make Block.addLine Block.stamp
  by_cases hw : opts.waitForSelectorOnClick <;>
    by_cases hc : opts.customLineAfterClick ≠ "" <;>
      simp [hw, hc]

theorem nonBlank_handleSubmit (st : GenState) (sel : String) :
    nonBlank (handleSubmit st sel) = true := by
  apply nonBlank_make_some
  repeat apply append_ne_empty
  decide

theorem nonBlank_handleKeyDown (st : GenState) (sel : String) (v : JSVal) :
    nonBlank (handleKeyDown st sel v) = true := by
  apply nonBlank_addLine
  repeat apply append_ne_empty
  decide

theorem nonBlank_handleClick (opts : Options) (st : GenState) (sel : String) :
    nonBlank (handleClick opts st sel) = true := by
  refine nonBlank_of_mem _
    { type := some "click"
      value := "await " ++ st.frame ++ ".click('" ++ sel ++ "')"
      frameId := st.frameId } ?_ ?_
  · rw [handleClick_lines]
    simp
  · repeat apply append_ne_empty
    decide

theorem nonBlank_handleSelectChange (st : GenState) (sel : String) (v : JSVal) :
    nonBlank (handleSelectChange st sel v) = true := by
  apply nonBlank_make_some
  repeat apply append_ne_empty
  decide

theorem nonBlank_handleChange (st : GenState) (sel : String) (v : JSVal) :
    nonBlank (handleChange st sel v) = true := by
  apply nonBlank_make_some
  repeat apply append_ne_empty
  decide

theorem nonBlank_handleGoto (st : GenState) (href : String) :
    nonBlank (handleGoto st href) = true := by
  apply nonBlank_make_some
  repeat apply append_ne_empty
  decide

theorem nonBlank_handleViewport (st : GenState) (w h : JSVal) :
    nonBlank (handleViewport st w h) = true := by
  apply nonBlank_make_some
  repeat apply append_ne_empty
  decide

theorem nonBlank_handleWaitForNavigation (opts : Options) (st : GenState) :
    nonBlank (handleWaitForNavigation opts st) = opts.waitForNavigation := by
  unfold handleWaitForNavigation
  by_cases hw : opts.waitForNavigation
  · rw [if_pos hw, hw]
    apply nonBlank_addLine
    decide
  · rw [if_neg hw]
    simp [hw, nonBlank, Block.make]

theorem nonBlank_blankBlock : nonBlank blankBlock = false := by decide

theorem nonBlank_navPromiseBlock (fid : Nat) : nonBlank (navPromiseBlock fid) = true := by
  apply nonBlank_make_some
  decide

/-! ### Helper lemmas about the frame-declaration pass -/

theorem findPendingFrame_some (af : List (Nat × String)) (lines : List Line) (fid : Nat)
    (h : findPendingFrame af lines = some fid) :
    ∃ l ∈ lines, l.frameId = fid ∧ fid ≠ 0 ∧ (framesLookup af fid).isSome := by
  unfold findPendingFrame at h
  cases hf : lines.find? (fun l => l.frameId ≠ 0 && (framesLookup af l.frameId).isSome) with
  | none => rw [hf] at h; cases h
  | some l =>
    rw [hf] at h
    have hfid : l.frameId = fid := by cases h; rfl
    have hmem := List.mem_of_find?_eq_some hf
    have hpred := List.find?_some hf
    simp only [Bool.and_eq_true, decide_eq_true_eq] at hpred
    exact ⟨l, hmem, hfid, hfid ▸ hpred.1, hfid ▸ hpred.2⟩

theorem setFramesPassAux_cons (af : List (Nat × String)) (b : Block) (bs : List Block) :
    setFramesPassAux af (b :: bs) =
      match findPendingFrame af b.lines with
      | some fid =>
        (((b.addLineToTop (resolveFrameLine fid ((framesLookup af fid).getD ""))).addLineToTop
            fetchFramesLine) :: (setFramesPassAux (framesDelete af fid) bs).1,
          fid :: (setFramesPassAux (framesDelete af fid) bs).2)
      | none => (b :: (setFramesPassAux af bs).1, (setFramesPassAux af bs).2) := by
  rfl

theorem setFramesPass_nil (af : List (Nat × String)) : setFramesPass af [] = [] := rfl

theorem setFramesPass_cons (af : List (Nat × String)) (b : Block) (bs : List Block) :
    setFramesPass af (b :: bs) =
      match findPendingFrame af b.lines with
      | some fid =>
        ((b.addLineToTop (resolveFrameLine fid ((framesLookup af fid).getD ""))).addLineToTop
            fetchFramesLine) :: setFramesPass (framesDelete af fid) bs
      | none => b :: setFramesPass af bs := by
  unfold setFramesPass
  rw [setFramesPassAux_cons]
  cases findPendingFrame af b.lines <;> rfl

theorem setFramesPassIds_nil (af : List (Nat × String)) : setFramesPassIds af [] = [] := rfl

theorem setFramesPassIds_cons (af : List (Nat × String)) (b : Block) (bs : List Block) :
    setFramesPassIds af (b :: bs) =
      match findPendingFrame af b.lines with
      | some fid => fid :: setFramesPassIds (framesDelete af fid) bs
      | none => setFramesPassIds af bs := by
  unfold setFramesPassIds
  rw [setFramesPassAux_cons]
  cases findPendingFrame af b.lines <;> rfl

theorem setFramesPass_length (bs : List Block) : ∀ af : List (Nat × String),
    (setFramesPass af bs).length = bs.length := by
  induction bs with
  | nil => intro af; rfl
  | cons b bs ih =>
    intro af
    rw [setFramesPass_cons]
    cases findPendingFrame af b.lines with
    | none => simp [ih af]
    | some fid => simp [ih (framesDelete af fid)]

/-- Every frame id the pass declares was pending in the map it started
from. -/
theorem setFramesPassIds_subset (bs : List Block) : ∀ (af : List (Nat × String)) (x : Nat),
    x ∈ setFramesPassIds af bs → (framesLookup af x).isSome := by
  induction bs with
  | nil => intro af x hx; rw [setFramesPassIds_nil] at hx; cases hx
  | cons b bs ih =>
    intro af x hx
    rw [setFramesPassIds_cons] at hx
    cases hf : findPendingFrame af b.lines with
    | none => rw [hf] at hx; exact ih af x hx
    | some fid =>
      rw [hf] at hx
      rcases List.mem_cons.mp hx with hx | hx
      · obtain ⟨l, _, _, _, hsome⟩ := findPendingFrame_some af b.lines fid hf
        rw [hx]
        exact hsome
      · have := ih (framesDelete af fid) x hx
        rw [framesLookup_delete] at this
        by_cases hxf : x = fid
        · rw [if_pos hxf] at this; cases this
        · rw [if_neg hxf] at this; exact this

/-- The pass never declares the same frame id twice. -/
theorem setFramesPassIds_nodup (bs : List Block) : ∀ af : List (Nat × String),
    (setFramesPassIds af bs).Nodup := by
  induction bs with
  | nil => intro af; rw [setFramesPassIds_nil]; exact List.nodup_nil
  | cons b bs ih =>
    intro af
    rw [setFramesPassIds_cons]
    cases hf : findPendingFrame af b.lines with
    | none => exact ih af
    | some fid =>
      refine List.Nodup.cons ?_ (ih (framesDelete af fid))
      intro hmem
      have := setFramesPassIds_subset bs (framesDelete af fid) fid hmem
      rw [framesLookup_delete, if_pos rfl] at this
      cases this

/-- The pass rewrites each block in place: it keeps the block order and
only ever prepends declaration lines, and it never changes whether a
block is non-blank (a block that receives declarations already had a
line referencing the pending frame id, which is non-empty under the
stated invariant). -/
theorem setFramesPass_forall₂ (bs : List Block) : ∀ af : List (Nat × String),
    (∀ b ∈ bs, ∀ l ∈ b.lines, l.value ≠ "") →
    List.Forall₂ (fun b' b => nonBlank b' = nonBlank b ∧ b.lines <:+ b'.lines)
      (setFramesPass af bs) bs := by
  induction bs with
  | nil => intro af _; rw [setFramesPass_nil]; exact List.Forall₂.nil
  | cons b bs ih =>
    intro af h
    rw [setFramesPass_cons]
    cases hf : findPendingFrame af b.lines with
    | none =>
      exact List.Forall₂.cons ⟨rfl, List.suffix_rfl⟩
        (ih af (fun b hb => h b (List.mem_cons_of_mem _ hb)))
    | some fid =>
      refine List.Forall₂.cons ⟨?_, ?_⟩
        (ih (framesDelete af fid) (fun b hb => h b (List.mem_cons_of_mem _ hb)))
      · obtain ⟨l, hl, _, _, _⟩ := findPendingFrame_some af b.lines fid hf
        have hb : nonBlank b = true :=
          nonBlank_of_mem b l hl (h b (List.mem_cons_self b bs) l hl)
        have hb' : nonBlank ((b.addLineToTop
            (resolveFrameLine fid ((framesLookup af fid).getD ""))).addLineToTop
            fetchFramesLine) = true := by
          refine nonBlank_of_mem _
            ((b.addLineToTop (resolveFrameLine fid ((framesLookup af fid).getD ""))).stamp
              fetchFramesLine) ?_ ?_
          · simp [Block.addLineToTop]
          · rw [stamp_value]
            decide
        rw [hb, hb']
      · refine List.IsSuffix.trans ?_ (List.suffix_cons _ _)
        exact List.suffix_cons _ _

/-- Filtering both sides of the pass correspondence to the non-blank
blocks keeps them aligned. -/
theorem forall₂_filter_nonBlank (l₁ l₂ : List Block)
    (h : List.Forall₂ (fun b' b => nonBlank b' = nonBlank b ∧ b.lines <:+ b'.lines) l₁ l₂) :
    List.Forall₂ (fun b' b => b.lines <:+ b'.lines)
      (l₁.filter nonBlank) (l₂.filter nonBlank) := by
  induction h with
  | nil => exact List.Forall₂.nil
  | cons hbb htail ih =>
    rename_i b' b t₁ t₂
    obtain ⟨heq, hsuf⟩ := hbb
    by_cases hnb : nonBlank b = true
    · rw [List.filter_cons, List.filter_cons, if_pos (by rw [heq]; exact hnb), if_pos hnb]
      exact List.Forall₂.cons hsuf ih
    · rw [List.filter_cons, List.filter_cons,
        if_neg (by rw [heq]; exact hnb), if_neg hnb]
      exact ih

/-! ### Helper lemmas about the blank-line pass -/

theorem interleaveBlanks_length (bs : List Block) :
    (interleaveBlanks bs).length = 2 * bs.length + 1 := by
  induction bs with
  | nil => rfl
  | cons b bs ih =>
    unfold interleaveBlanks
    simp [ih]
    omega

theorem interleaveBlanks_get_even (bs : List Block) : ∀ i : Nat, i ≤ bs.length →
    (interleaveBlanks bs).get? (2 * i) = some blankBlock := by
  induction bs with
  | nil =>
    intro i hi
    have hz : i = 0 := Nat.le_zero.mp hi
    subst hz
    rfl
  | cons b bs ih =>
    intro i hi
    cases i with
    | zero => rfl
    | succ j =>
      have h2 : 2 * (j + 1) = (2 * j) + 2 := by omega
      rw [h2]
      unfold interleaveBlanks
      simp only [List.get?_cons_succ]
      exact ih j (by simpa using hi)

theorem interleaveBlanks_get_odd (bs : List Block) : ∀ i : Nat, i < bs.length →
    (interleaveBlanks bs).get? (2 * i + 1) = bs.get? i := by
  induction bs with
  | nil => intro i hi; cases hi
  | cons b bs ih =>
    intro i hi
    cases i with
    | zero => rfl
    | succ j =>
      have h2 : 2 * (j + 1) + 1 = (2 * j + 1) + 2 := by omega
      rw [h2]
      unfold interleaveBlanks
      simp only [List.get?_cons_succ]
      exact ih j (by simpa using hi)

theorem interleaveBlanks_filter (bs : List Block) :
    (interleaveBlanks bs).filter nonBlank = bs.filter nonBlank := by
  induction bs with
  | nil => rfl
  | cons b bs ih =>
    unfold interleaveBlanks
    rw [List.filter_cons, if_neg (by rw [nonBlank_blankBlock]; simp), List.filter_cons,
      List.filter_cons, ih]

/-! ### Which events yield a non-blank block -/

theorem stepEvent_count (opts : Options) (st : GenState) (e : EventRecord)
    (st' : GenState) (ob : Option Block) (h : stepEvent opts st e = .ok (st', ob)) :
    (ob.toList.filter nonBlank).length = if producesNonBlankBlock opts e then 1 else 0 := by
  obtain ⟨ob₀, hd, _, hob⟩ := (stepEvent_ok_iff opts st e st' ob).1 h
  subst hob
  unfold dispatchAction at hd
  unfold producesNonBlankBlock
  by_cases h1 : e.action = "submit"
  · rw [if_pos h1] at hd ⊢
    cases hd
    by_cases ht : e.tagName = "FORM"
    · rw [if_pos ht]
      simp [ht, List.filter_cons, nonBlank_handleComments, nonBlank_handleSubmit]
    · rw [if_neg ht]
      simp [ht]
  rw [if_neg h1] at hd ⊢
  by_cases h2 : e.action = "keydown"
  · rw [if_pos h2] at hd ⊢
    cases hd
    by_cases hk : e.keyCode = some 9
    · rw [if_pos hk]
      simp [hk, List.filter_cons, nonBlank_handleComments, nonBlank_handleKeyDown]
    · rw [if_neg hk]
      simp [hk]
  rw [if_neg h2] at hd ⊢
  by_cases h3 : e.action = "click"
  · rw [if_pos h3] at hd ⊢
    cases hd
    simp [List.filter_cons, nonBlank_handleComments, nonBlank_handleClick]
  rw [if_neg h3] at hd ⊢
  by_cases h4 : e.action = "change"
  · rw [if_pos h4] at hd ⊢
    cases hd
    by_cases hs : e.tagName = "SELECT"
    · rw [if_pos hs]
      simp [List.filter_cons, nonBlank_handleComments, nonBlank_handleSelectChange]
    · rw [if_neg hs]
      simp [List.filter_cons, nonBlank_handleComments, nonBlank_handleChange]
  rw [if_neg h4] at hd ⊢
  by_cases h5 : e.action = "goto*"
  · rw [if_pos h5] at hd ⊢
    cases hd
    simp [List.filter_cons, nonBlank_handleComments, nonBlank_handleGoto]
  rw [if_neg h5] at hd ⊢
  by_cases h6 : e.action = "viewport*"
  · rw [if_pos h6] at hd ⊢
    cases hw : e.value.getWidth with
    | error msg =>
      rw [hw] at hd
      cases hh : e.value.getHeight with
      | error msg2 =>
        rw [hh] at hd
        cases (show (Except.error msg : Except String (Option Block)) = .ok ob₀ from hd)
      | ok ht =>
        rw [hh] at hd
        cases (show (Except.error msg : Except String (Option Block)) = .ok ob₀ from hd)
    | ok w =>
      cases hh : e.value.getHeight with
      | error msg =>
        rw [hw, hh] at hd
        cases (show (Except.error msg : Except String (Option Block)) = .ok ob₀ from hd)
      | ok ht =>
        rw [hw, hh] at hd
        cases hd
        simp [List.filter_cons, nonBlank_handleComments, nonBlank_handleViewport]
  rw [if_neg h6] at hd ⊢
  by_cases h7 : e.action = "navigation*"
  · rw [if_pos h7] at hd ⊢
    cases hd
    by_cases hwn : opts.waitForNavigation
    · simp [List.filter_cons, nonBlank_handleComments, nonBlank_handleWaitForNavigation, hwn]
    · by_cases hc : e.comments = ""
      · simp [List.filter_cons, nonBlank_handleComments,
          nonBlank_handleWaitForNavigation, hwn, hc]
      · simp [List.filter_cons, nonBlank_handleComments,
          nonBlank_handleWaitForNavigation, hwn, hc]
  rw [if_neg h7] at hd ⊢
  cases hd
  simp

/-- The non-blank count of all blocks built by a list of events. -/
theorem blocksOf_count (opts : Options) : ∀ (es : List EventRecord) (st : GenState)
    (ebs : List Block), blocksOf opts st es = .ok ebs →
    (ebs.filter nonBlank).length =
      (es.filter (fun e => producesNonBlankBlock opts e)).length := by
  intro es
  induction es with
  | nil =>
    intro st ebs h
    cases h
    rfl
  | cons e es ih =>
    intro st ebs h
    unfold blocksOf at h
    cases hse : stepEvent opts st e with
    | error msg => rw [hse] at h; cases h
    | ok p =>
      obtain ⟨st₁, ob⟩ := p
      rw [hse] at h
      cases hrest : blocksOf opts st₁ es with
      | error msg =>
        have h' : Except.error msg = Except.ok ebs := by
          have hcast : (do
              let rest ← blocksOf opts st₁ es
              Except.ok (ob.toList ++ rest) : Except String (List Block)) = .ok ebs := h
          rw [hrest] at hcast
          exact hcast
        cases h'
      | ok rest =>
        have hcast : (do
            let rest ← blocksOf opts st₁ es
            Except.ok (ob.toList ++ rest) : Except String (List Block)) = .ok ebs := h
        rw [hrest] at hcast
        have hebs : ebs = ob.toList ++ rest := by
          cases hcast
          rfl
        subst hebs
        rw [List.filter_append, List.length_append, List.filter_cons]
        rw [ih st₁ rest hrest, stepEvent_count opts st e st₁ ob hse]
        by_cases hp : producesNonBlankBlock opts e = true
        · rw [if_pos hp, if_pos hp]
          simp only [List.length_cons]
          omega
        · rw [if_neg hp, if_neg (by simpa using hp)]
          omega

/-- Every line of every block built from an event has non-empty text
(the blank lines in the final output come only from the blank-line
pass). -/
theorem stepEvent_lines_ne (opts : Options) (st : GenState) (e : EventRecord)
    (st' : GenState) (b : Block) (h : stepEvent opts st e = .ok (st', some b)) :
    ∀ l ∈ b.lines, l.value ≠ "" := by
  obtain ⟨ob₀, hd, _, hob⟩ := (stepEvent_ok_iff opts st e st' (some b)).1 h
  cases ob₀ with
  | none => cases hob
  | some b₀ =>
    have hb : b = handleComments b₀ e.comments := by cases hob; rfl
    subst hb
    have hcore : ∀ l ∈ b₀.lines, l.value ≠ "" := by
      unfold dispatchAction at hd
      by_cases h1 : e.action = "submit"
      · rw [if_pos h1] at hd
        by_cases ht : e.tagName = "FORM"
        · rw [if_pos ht] at hd
          cases hd
          intro l hl
          simp only [handleSubmit, Block.make, List.mem_singleton] at hl
          rw [hl, stamp_value]
          repeat apply append_ne_empty
          decide
        · rw [if_neg ht] at hd; cases hd
      · rw [if_neg h1] at hd
        by_cases h2 : e.action = "keydown"
        · rw [if_pos h2] at hd
          by_cases hk : e.keyCode = some 9
          · rw [if_pos hk] at hd
            cases hd
            intro l hl
            simp only [handleKeyDown, Block.make, Block.addLine, List.nil_append,
              List.mem_singleton] at hl
            rw [hl, stamp_value]
            repeat apply append_ne_empty
            decide
          · rw [if_neg hk] at hd; cases hd
        · rw [if_neg h2] at hd
          by_cases h3 : e.action = "click"
          · rw [if_pos h3] at hd
            cases hd
            intro l hl
            rw [handleClick_lines] at hl
            rcases List.mem_append.mp hl with hl | hl
            · rcases List.mem_append.mp hl with hl | hl
              · by_cases hw : opts.waitForSelectorOnClick
                · rw [if_pos hw] at hl
                  simp only [List.mem_singleton] at hl
                  rw [hl]
                  repeat apply append_ne_empty
                  decide
                · rw [if_neg hw] at hl; cases hl
              · simp only [List.mem_singleton] at hl
                rw [hl]
                repeat apply append_ne_empty
                decide
            · by_cases hc : opts.customLineAfterClick ≠ ""
              · rw [if_pos hc] at hl
                simp only [List.mem_singleton] at hl
                rw [hl]
                exact hc
              · rw [if_neg hc] at hl; cases hl
          · rw [if_neg h3] at hd
            by_cases h4 : e.action = "change"
            · rw [if_pos h4] at hd
              cases hd
              by_cases hs : e.tagName = "SELECT"
              · rw [if_pos hs]
                intro l hl
                simp only [handleSelectChange, Block.make, List.mem_singleton] at hl
                rw [hl, stamp_value]
                repeat apply append_ne_empty
                decide
              · rw [if_neg hs]
                intro l hl
                simp only [handleChange, Block.make, List.mem_singleton] at hl
                rw [hl, stamp_value]
                repeat apply append_ne_empty
                decide
            · rw [if_neg h4] at hd
              by_cases h5 : e.action = "goto*"
              · rw [if_pos h5] at hd
                cases hd
                intro l hl
                simp only [handleGoto, Block.make, List.mem_singleton] at hl
                rw [hl, stamp_value]
                repeat apply append_ne_empty
                decide
              · rw [if_neg h5] at hd
                by_cases h6 : e.action = "viewport*"
                · rw [if_pos h6] at hd
                  cases hw : e.value.getWidth with
                  | error msg =>
                    rw [hw] at hd
                    cases hh : e.value.getHeight with
                    | error msg2 =>
                      rw [hh] at hd
                      cases (show (Except.error msg : Except String (Option Block)) =
                        .ok (some b₀) from hd)
                    | ok ht =>
                      rw [hh] at hd
                      cases (show (Except.error msg : Except String (Option Block)) =
                        .ok (some b₀) from hd)
                  | ok w =>
                    cases hh : e.value.getHeight with
                    | error msg =>
                      rw [hw, hh] at hd
                      cases (show (Except.error msg : Except String (Option Block)) =
                        .ok (some b₀) from hd)
                    | ok ht =>
                      rw [hw, hh] at hd
                      cases hd
                      intro l hl
                      simp only [handleViewport, Block.make, List.mem_singleton] at hl
                      rw [hl, stamp_value]
                      repeat apply append_ne_empty
                      decide
                · rw [if_neg h6] at hd
                  by_cases h7 : e.action = "navigation*"
                  · rw [if_pos h7] at hd
                    cases hd
                    unfold handleWaitForNavigation
                    by_cases hwn : opts.waitForNavigation
                    · rw [if_pos hwn]
                      intro l hl
                      simp only [Block.make, Block.addLine, List.nil_append,
                        List.mem_singleton] at hl
                      rw [hl, stamp_value]
                      decide
                    · rw [if_neg hwn]
                      intro l hl
                      simp [Block.make] at hl
                  · rw [if_neg h7] at hd
                    cases hd
    unfold handleComments
    by_cases hc : e.comments ≠ ""
    · rw [if_pos hc]
      intro l hl
      simp only [Block.addLineToTop, List.mem_cons] at hl
      rcases hl with hl | hl
      · rw [hl, stamp_value]
        apply append_ne_empty
        apply append_ne_empty
        decide
      · exact hcore l hl
    · rw [if_neg hc]
      exact hcore

/-- Every line of every block built by the event loop has non-empty
text. -/
theorem blocksOf_lines_ne (opts : Options) : ∀ (es : List EventRecord) (st : GenState)
    (ebs : List Block), blocksOf opts st es = .ok ebs →
    ∀ b ∈ ebs, ∀ l ∈ b.lines, l.value ≠ "" := by
  intro es
  induction es with
  | nil =>
    intro st ebs h
    cases h
    intro b hb
    cases hb
  | cons e es ih =>
    intro st ebs h
    unfold blocksOf at h
    cases hse : stepEvent opts st e with
    | error msg => rw [hse] at h; cases h
    | ok p =>
      obtain ⟨st₁, ob⟩ := p
      rw [hse] at h
      cases hrest : blocksOf opts st₁ es with
      | error msg =>
        have hcast : (do
            let rest ← blocksOf opts st₁ es
            Except.ok (ob.toList ++ rest) : Except String (List Block)) = .ok ebs := h
        rw [hrest] at hcast
        cases hcast
      | ok rest =>
        have hcast : (do
            let rest ← blocksOf opts st₁ es
            Except.ok (ob.toList ++ rest) : Except String (List Block)) = .ok ebs := h
        rw [hrest] at hcast
        have hebs : ebs = ob.toList ++ rest := by
          cases hcast
          rfl
        subst hebs
        intro b hb
        rcases List.mem_append.mp hb with hb | hb
        · cases ob with
          | none => cases hb
          | some b₀ =>
            simp only [Option.toList, List.mem_singleton] at hb
            subst hb
            exact stepEvent_lines_ne opts st e st₁ b hse
        · exact ih st₁ rest hrest b hb

/-- The event loop succeeds whenever no `viewport*` event has an
`undefined` value. -/
theorem processEventsFrom_isOk (opts : Options) :
    ∀ (es : List EventRecord) (acc : GenState × List Block),
      (∀ e ∈ es, e.action = "viewport*" → e.value ≠ JSVal.undef) →
      ∃ p, processEventsFrom opts acc es = .ok p := by
  intro es
  induction es with
  | nil => intro acc _; exact ⟨acc, rfl⟩
  | cons e es ih =>
    intro acc h
    obtain ⟨⟨st₁, ob⟩, hse⟩ :=
      stepEvent_isOk opts acc.1 e (h e (List.mem_cons_self e es))
    obtain ⟨p, hp⟩ := ih (st₁, acc.2 ++ ob.toList)
      (fun e' he' hv => h e' (List.mem_cons_of_mem _ he') hv)
    refine ⟨p, ?_⟩
    unfold processEventsFrom processOneEvent
    rw [hse]
    exact hp

/-- `generate` returns a string whenever no `viewport*` event has an
`undefined` value. -/
theorem generate_isOk (opts : Options) (events : List EventRecord)
    (h : ∀ e ∈ events, e.action = "viewport*" → e.value ≠ JSVal.undef) :
    (generate opts events).toOption.isSome = true := by
  obtain ⟨⟨st', bs'⟩, hp⟩ := processEventsFrom_isOk opts events (initState, []) h
  unfold generate parseEvents pipelineBlocks processEvents
  rw [hp]
  rfl



/-! ## Claims -/

/-- C4 counterexample: the compiler is not total — a `viewport*` event
whose `value` field is absent makes `generate` throw the `value.width`
TypeError instead of silently skipping the event. -/
theorem compile_aborts_on_valueless_viewport :
    generate defaults [{ action := "viewport*" }] =
      .error "TypeError: Cannot read property width of undefined" := rfl

/-- C4 (amended): `generate` returns a string for every event sequence
whose `viewport*` events carry a defined `value`; an event with an
unrecognized action, a `submit` on a non-FORM tag, or a `keydown` with a
key code other than 9 is silently skipped — the frame-tracking state is
still updated but no block is emitted. -/
theorem compile_no_abort_amended :
    (∀ (opts : Options) (events : List EventRecord),
      (∀ e ∈ events, e.action = "viewport*" → e.value ≠ JSVal.undef) →
      (generate opts events).toOption.isSome = true) ∧
    (∀ (opts : Options) (st : GenState) (e : EventRecord),
      (e.action ∉ ["submit", "keydown", "click", "change", "goto*", "viewport*", "navigation*"] ∨
        (e.action = "submit" ∧ e.tagName ≠ "FORM") ∨
        (e.action = "keydown" ∧ e.keyCode ≠ some 9)) →
      stepEvent opts st e = .ok (setFrames st e.frameId e.frameUrl, none)) :=
  ⟨generate_isOk, stepEvent_skip⟩

/-- C4 witness: the amended theorem at concrete inputs — a click-only
sequence compiles, and a `dblclick` event is skipped. -/
theorem compile_no_abort_amended_witness :
    (generate defaults [clickGoEvent]).toOption.isSome = true ∧
    stepEvent defaults initState { action := "dblclick" } =
      .ok (setFrames initState 0 "", none) :=
  ⟨compile_no_abort_amended.1 defaults [clickGoEvent] (by decide),
   compile_no_abort_amended.2 defaults initState { action := "dblclick" }
     (Or.inl (by decide))⟩

/-- C5: the constructor runs `Object.assign(defaults, options)`, which
mutates the shared module-level `defaults` object. A second generator
constructed with an empty options object therefore inherits the options
of the first one: after constructing with `headless: false`, a fresh
`{}` construction yields `headless = false` and a visibly different
script than a `{}` construction against pristine defaults. -/
theorem shared_defaults_mutation_bug :
    (objectAssign (objectAssign defaults { headless := some false }) {}).headless = false ∧
    defaults.headless = true ∧
    (generate (objectAssign (objectAssign defaults { headless := some false }) {}) []).toOption ≠
      (generate (objectAssign defaults {}) []).toOption := by
  refine ⟨rfl, rfl, ?_⟩
  decide

/-- C7: a click block consists of the optional wait-for-selector line
(when `waitForSelectorOnClick` is on), then the click line, then the
optional `customLineAfterClick` line (when that option is a non-empty
string); and the concrete input `[{action: click, selector: #go}]`
under default configuration produces exactly the import, the async
headless preamble, the wait line, the click line (in that order, with
the blank lines of the default blank-line pass), and the wrapped
footer. -/
theorem click_compilation_correct :
    (∀ (opts : Options) (st : GenState) (sel : String),
      (handleClick opts st sel).lines =
        (if opts.waitForSelectorOnClick then
          [{ type := some "click"
             value := "await " ++ st.frame ++ ".waitForSelector('" ++ sel ++ "')"
             frameId := st.frameId }] else []) ++
        [{ type := some "click"
           value := "await " ++ st.frame ++ ".click('" ++ sel ++ "')"
           frameId := st.frameId }] ++
        (if opts.customLineAfterClick ≠ "" then
          [{ type := some "click"
             value := opts.customLineAfterClick
             frameId := st.frameId }] else [])) ∧
    generate defaults [clickGoEvent] =
      .ok ("const puppeteer = require('puppeteer');\n(async () => \x7b\n  const browser = await puppeteer.launch()\n  const page = await browser.newPage()\n  \n  await page.waitForSelector('#go')\n  await page.click('#go')\n  \n  await browser.close()\n\x7d)()") :=
  ⟨handleClick_lines, rfl⟩

/-- C10: selector and value strings are spliced verbatim between
single-quote delimiters with no escaping: the change handler emits
exactly `await <frame>.type('<selector>', '<value>')`, the submit
handler exactly `await <frame>.$eval('<selector>', form =>
form.submit())`, the click handler a line exactly
`await <frame>.click('<selector>')` — including when the strings contain
single quotes or backslashes, as the concrete example shows. -/
theorem verbatim_interpolation :
    (∀ (st : GenState) (sel v : String),
      (handleChange st sel (JSVal.str v)).lines =
        [{ type := some "change"
           value := "await " ++ st.frame ++ ".type('" ++ sel ++ "', '" ++ v ++ "')"
           frameId := st.frameId }]) ∧
    (∀ (st : GenState) (sel : String),
      (handleSubmit st sel).lines =
        [{ type := some "change"
           value := "await " ++ st.frame ++ ".$eval('" ++ sel ++ "', form => form.submit())"
           frameId := st.frameId }]) ∧
    (∀ (opts : Options) (st : GenState) (sel : String),
      ({ type := some "click"
         value := "await " ++ st.frame ++ ".click('" ++ sel ++ "')"
         frameId := st.frameId } : Line) ∈ (handleClick opts st sel).lines) ∧
    (handleChange initState "#name" (JSVal.str "O'Hara \\")).lines =
      [{ type := some "change"
         value := "await page.type('#name', 'O'Hara \\')"
         frameId := 0 }] := by
  refine ⟨fun st sel v => rfl, fun st sel => rfl, fun opts st sel => ?_, rfl⟩
  rw [handleClick_lines]
  simp

/-- C9: a `keydown` event produces a block exactly when its key code is
9 (Tab); the produced block is the keydown handler's block (with the
event's comment applied), whose single line types the event's value
into the event's selector on the current frame. -/
theorem keydown_tab_only (opts : Options) (st : GenState) (e : EventRecord)
    (st' : GenState) (ob : Option Block) (ha : e.action = "keydown")
    (h : stepEvent opts st e = .ok (st', ob)) :
    (ob.isSome ↔ e.keyCode = some 9) ∧
    (e.keyCode = some 9 →
      ob = some (handleComments
        (handleKeyDown (setFrames st e.frameId e.frameUrl) e.selector e.value) e.comments) ∧
      (handleKeyDown (setFrames st e.frameId e.frameUrl) e.selector e.value).lines =
        [{ type := some "keydown"
           value := "await " ++ (setFrames st e.frameId e.frameUrl).frame ++ ".type('"
             ++ e.selector ++ "', '" ++ e.value.interp ++ "')"
           frameId := (setFrames st e.frameId e.frameUrl).frameId }]) := by
  obtain ⟨ob₀, hd, hst, hob⟩ := (stepEvent_ok_iff opts st e st' ob).1 h
  unfold dispatchAction at hd
  rw [if_neg (by rw [ha]; decide), if_pos ha] at hd
  subst hob
  by_cases hk : e.keyCode = some 9
  · rw [if_pos hk] at hd
    cases hd
    refine ⟨by simp [hk], fun _ => ⟨rfl, rfl⟩⟩
  · rw [if_neg hk] at hd
    cases hd
    exact ⟨by simp [hk], fun hkk => absurd hkk hk⟩

/-- C9 witness: the theorem at a concrete Tab keydown. -/
theorem keydown_tab_only_witness :
    (kdTabEvent.action = "keydown") ∧
    (((some (handleComments (handleKeyDown initState "#q" (JSVal.str "x")) "")
        : Option Block).isSome ↔ kdTabEvent.keyCode = some 9) ∧
      (kdTabEvent.keyCode = some 9 →
        (some (handleComments (handleKeyDown initState "#q" (JSVal.str "x")) "")
            : Option Block) = some (handleComments
          (handleKeyDown (setFrames initState kdTabEvent.frameId kdTabEvent.frameUrl)
            kdTabEvent.selector kdTabEvent.value) kdTabEvent.comments) ∧
        (handleKeyDown (setFrames initState kdTabEvent.frameId kdTabEvent.frameUrl)
            kdTabEvent.selector kdTabEvent.value).lines =
          [{ type := some "keydown"
             value := "await " ++ (setFrames initState kdTabEvent.frameId
               kdTabEvent.frameUrl).frame ++ ".type('" ++ kdTabEvent.selector ++ "', '"
               ++ kdTabEvent.value.interp ++ "')"
             frameId := (setFrames initState kdTabEvent.frameId
               kdTabEvent.frameUrl).frameId }])) :=
  ⟨rfl, keydown_tab_only defaults initState kdTabEvent initState
    (some (handleComments (handleKeyDown initState "#q" (JSVal.str "x")) "")) rfl rfl⟩

/-- C8 counterexample: when two events carry the same non-zero frame id
with different frame urls, the pending map holds the url of the last
such event, not the first: after clicks in frame 3 at "u1" then "u2",
the map binds 3 to "u2". -/
theorem frame_url_first_seen_counterexample :
    (processEvents defaults initState
      [frameClickEvent "s3" 3 "u1", frameClickEvent "s3" 3 "u2"]).map
      (fun p => framesLookup p.1.allFrames 3) = .ok (some "u2") ∧
    ("u2" : String) ≠ "u1" := by
  exact ⟨rfl, by decide⟩

/-- C8 (amended): after each event the current frame variable is
`frame_<id>` with the event's id when that id is non-zero (and the map
then binds the id to that event's url), else the page handle with id 0
and an untouched map; and after a whole run from the initial state a
non-zero id maps to the url of the *last* event that carried it, or to
nothing if no event did. -/
theorem frame_tracking_amended :
    (∀ (opts : Options) (st : GenState) (e : EventRecord) (st' : GenState)
      (ob : Option Block), stepEvent opts st e = .ok (st', ob) →
      (e.frameId ≠ 0 → st'.frame = "frame_" ++ toString e.frameId ∧
        st'.frameId = e.frameId ∧
        framesLookup st'.allFrames e.frameId = some e.frameUrl) ∧
      (e.frameId = 0 → st'.frame = "page" ∧ st'.frameId = 0 ∧
        st'.allFrames = st.allFrames)) ∧
    (∀ (opts : Options) (events : List EventRecord) (st' : GenState) (bs' : List Block),
      processEvents opts initState events = .ok (st', bs') →
      ∀ fid : Nat, fid ≠ 0 →
        framesLookup st'.allFrames fid =
          match (events.filter (fun e => e.frameId == fid)).getLast? with
          | some e => some e.frameUrl
          | none => none) := by
  constructor
  · intro opts st e st' ob h
    have hfr := stepEvent_frame opts st e st' ob h
    have haf := stepEvent_allFrames opts st e st' ob h
    constructor
    · intro hne
      obtain ⟨h1, h2, h3⟩ := setFrames_pos st e.frameId e.frameUrl hne
      exact ⟨by rw [hfr.1, h1], by rw [hfr.2, h2],
        by rw [haf, h3, framesLookup_set_self]⟩
    · intro hz
      rw [hz] at hfr haf
      obtain ⟨h1, h2, h3⟩ := setFrames_zero st e.frameUrl
      exact ⟨by rw [hfr.1, h1], by rw [hfr.2, h2], by rw [haf, h3]⟩
  · intro opts events st' bs' hp fid hfid
    have := processEventsFrom_allFrames opts events initState [] st' bs' hp fid hfid
    rw [this]
    cases (events.filter (fun e => e.frameId == fid)).getLast? with
    | some e => rfl
    | none => rfl

/-- C8 witness: the amended theorem's per-event part at a concrete
frame-3 click. -/
theorem frame_tracking_amended_witness :
    ((frameClickEvent "s3" 3 "u1").frameId ≠ 0 →
      (frame3State "u1").frame = "frame_" ++ toString (frameClickEvent "s3" 3 "u1").frameId ∧
      (frame3State "u1").frameId = (frameClickEvent "s3" 3 "u1").frameId ∧
      framesLookup (frame3State "u1").allFrames (frameClickEvent "s3" 3 "u1").frameId =
        some (frameClickEvent "s3" 3 "u1").frameUrl) ∧
    ((frameClickEvent "s3" 3 "u1").frameId = 0 →
      (frame3State "u1").frame = "page" ∧
      (frame3State "u1").frameId = 0 ∧
      (frame3State "u1").allFrames = initState.allFrames) :=
  frame_tracking_amended.1 defaults initState (frameClickEvent "s3" 3 "u1")
    (frame3State "u1")
    (some (handleComments (handleClick defaults (frame3State "u1") "s3") "")) rfl

/-- C6: the blank-line pass turns `n` blocks into `2 n + 1` alternating
blocks — a blank block at every even position (including before the
first and after the last) and the original blocks in order at the odd
positions — and no blank block is inserted when the option is off or
when the block list is empty. -/
theorem blank_line_insertion_correct :
    (∀ bs : List Block, (interleaveBlanks bs).length = 2 * bs.length + 1) ∧
    (∀ (bs : List Block) (i : Nat), i ≤ bs.length →
      (interleaveBlanks bs).get? (2 * i) = some blankBlock) ∧
    (∀ (bs : List Block) (i : Nat), i < bs.length →
      (interleaveBlanks bs).get? (2 * i + 1) = bs.get? i) ∧
    (∀ (opts : Options) (af : List (Nat × String)) (bs : List Block),
      opts.blankLinesBetweenBlocks = false →
      (postProcess opts af bs).length = bs.length) ∧
    (∀ (opts : Options) (af : List (Nat × String)), postProcess opts af [] = []) := by
  refine ⟨interleaveBlanks_length, interleaveBlanks_get_even, interleaveBlanks_get_odd,
    ?_, ?_⟩
  · intro opts af bs hb
    unfold postProcess
    rw [hb]
    simp only [Bool.false_and, Bool.false_eq_true, if_false]
    split
    · exact setFramesPass_length bs af
    · rfl
  · intro opts af
    unfold postProcess
    split
    · rw [setFramesPass_nil]
      simp
    · simp

/-- C6 witness: the theorem at a one-block list and at concrete
configurations. -/
theorem blank_line_insertion_correct_witness :
    (interleaveBlanks [navPromiseBlock 0]).length = 2 * [navPromiseBlock 0].length + 1 ∧
    ((0 : Nat) ≤ [navPromiseBlock 0].length ∧
      (interleaveBlanks [navPromiseBlock 0]).get? (2 * 0) = some blankBlock) ∧
    ((0 : Nat) < [navPromiseBlock 0].length ∧
      (interleaveBlanks [navPromiseBlock 0]).get? (2 * 0 + 1) = [navPromiseBlock 0].get? 0) ∧
    (noBlankOpts.blankLinesBetweenBlocks = false ∧
      (postProcess noBlankOpts [] [navPromiseBlock 0]).length = [navPromiseBlock 0].length) ∧
    postProcess defaults [] [] = [] :=
  ⟨blank_line_insertion_correct.1 [navPromiseBlock 0],
   ⟨by decide, blank_line_insertion_correct.2.1 [navPromiseBlock 0] 0 (by decide)⟩,
   ⟨by decide, blank_line_insertion_correct.2.2.1 [navPromiseBlock 0] 0 (by decide)⟩,
   ⟨rfl, blank_line_insertion_correct.2.2.2.1 noBlankOpts [] [navPromiseBlock 0] rfl⟩,
   blank_line_insertion_correct.2.2.2.2 defaults []⟩

/-- C2: if any `navigation*` event occurred and navigation waiting is
enabled, the single navigation-promise declaration block is placed at
position 0 of the block list after the loop; concretely, for
`[click, navigation*]` under the defaults the rendered line list has the
declaration at index 1 (after the leading blank line) and the click at
index 4, so the declaration precedes the click. -/
theorem navigation_promise_hoisted (opts : Options) (events : List EventRecord)
    (st' : GenState) (bs' : List Block)
    (hp : processEvents opts initState events = .ok (st', bs'))
    (hnav : ∃ e ∈ events, e.action = "navigation*")
    (hw : opts.waitForNavigation = true) :
    addNavDeclaration opts st' bs' = navPromiseBlock st'.frameId :: bs' ∧
    (pipelineBlocks defaults [clickGoEvent, navigationEvent]).map lineValues =
      .ok ["", "const navigationPromise = page.waitForNavigation()", "",
        "await page.waitForSelector('#go')", "await page.click('#go')", "",
        "await navigationPromise", ""] ∧
    (pipelineBlocks defaults [clickGoEvent, navigationEvent]).map
      (fun bs => ((lineValues bs).get? 1, (lineValues bs).get? 4)) =
      .ok (some "const navigationPromise = page.waitForNavigation()",
        some "await page.click('#go')") := by
  refine ⟨?_, rfl, rfl⟩
  have hflag : st'.hasNavigation = true := by
    rw [processEventsFrom_hasNavigation opts events initState [] st' bs' hp]
    obtain ⟨e, he, hae⟩ := hnav
    simp only [Bool.or_eq_true, List.any_eq_true]
    exact Or.inr ⟨e, he, by simp [hae]⟩
  unfold addNavDeclaration
  rw [hflag, hw]
  rfl

/-- C2 witness: the hoist at the concrete `[click, navigation*]` run. -/
theorem navigation_promise_hoisted_witness :
    addNavDeclaration defaults
      { frame := "page", frameId := 0, allFrames := [], hasNavigation := true }
      [clickBlockOf "page" "#go" 0,
        (Block.make 0 none).addLine { type := some "navigation", value := "await navigationPromise" }] =
      navPromiseBlock 0 ::
        [clickBlockOf "page" "#go" 0,
          (Block.make 0 none).addLine { type := some "navigation", value := "await navigationPromise" }] ∧
    (pipelineBlocks defaults [clickGoEvent, navigationEvent]).map lineValues =
      .ok ["", "const navigationPromise = page.waitForNavigation()", "",
        "await page.waitForSelector('#go')", "await page.click('#go')", "",
        "await navigationPromise", ""] ∧
    (pipelineBlocks defaults [clickGoEvent, navigationEvent]).map
      (fun bs => ((lineValues bs).get? 1, (lineValues bs).get? 4)) =
      .ok (some "const navigationPromise = page.waitForNavigation()",
        some "await page.click('#go')") :=
  navigation_promise_hoisted defaults [clickGoEvent, navigationEvent]
    { frame := "page", frameId := 0, allFrames := [], hasNavigation := true }
    [clickBlockOf "page" "#go" 0,
      (Block.make 0 none).addLine { type := some "navigation", value := "await navigationPromise" }]
    rfl ⟨navigationEvent, by decide, rfl⟩ rfl

/-- The blank-line stage of `_postProcess` never changes the non-blank
blocks. -/
theorem postProcess_filter (opts : Options) (af : List (Nat × String)) (bs : List Block) :
    (postProcess opts af bs).filter nonBlank =
      (if af.length > 0 then setFramesPass af bs else bs).filter nonBlank := by
  unfold postProcess
  generalize (if af.length > 0 then setFramesPass af bs else bs) = bs₁
  show List.filter nonBlank
      (if (opts.blankLinesBetweenBlocks && decide (bs₁.length > 0)) = true
        then interleaveBlanks bs₁ else bs₁) =
    List.filter nonBlank bs₁
  split
  · rw [interleaveBlanks_filter]
  · rfl

/-- C3 counterexample: for the single-event sequence `[navigation*]`
under the defaults (navigation waiting enabled), the output has two
non-blank blocks — the hoisted navigation-promise declaration and the
`await navigationPromise` block — while the dispatch rules as stated
count only one block-producing event, so the claimed equality fails. -/
theorem block_count_claim_counterexample :
    ((pipelineBlocks defaults [navigationEvent]).map
      (fun bs => (bs.filter nonBlank).length)).toOption = some 2 ∧
    ([navigationEvent].filter (fun e => specProducesBlock defaults e)).length = 1 ∧
    ((pipelineBlocks defaults [navigationEvent]).map
      (fun bs => (bs.filter nonBlank).length)).toOption ≠
      some (([navigationEvent].filter (fun e => specProducesBlock defaults e)).length) := by
  exact ⟨rfl, rfl, by decide⟩

/-- C3 (amended): for every successfully compiled event sequence, the
number of non-blank output blocks equals the number of events matching
the dispatch rules — counting a `navigation*` event when navigation
waiting is enabled or the event carries a comment — plus one more block
(the hoisted navigation-promise declaration) when some `navigation*`
event was seen and waiting is enabled; and the non-blank output blocks
are, in order, the (possibly frame-declaration-extended) blocks of the
hoisted declaration followed by the event blocks in event order: each
output block's lines end with the corresponding source block's lines. -/
theorem block_count_amended (opts : Options) (events : List EventRecord)
    (st' : GenState) (ebs : List Block) (bs : List Block)
    (hp : processEvents opts initState events = .ok (st', ebs))
    (hb : pipelineBlocks opts events = .ok bs) :
    (bs.filter nonBlank).length =
      (if events.any (fun e => e.action == "navigation*") && opts.waitForNavigation
        then 1 else 0) +
      (events.filter (fun e => producesNonBlankBlock opts e)).length ∧
    List.Forall₂ (fun b' b => b.lines <:+ b'.lines)
      (bs.filter nonBlank) ((addNavDeclaration opts st' ebs).filter nonBlank) := by
  have hbs : bs = postProcess opts st'.allFrames (addNavDeclaration opts st' ebs) := by
    unfold pipelineBlocks at hb
    rw [hp] at hb
    have hb' : Except.ok (postProcess opts st'.allFrames (addNavDeclaration opts st' ebs)) =
        Except.ok bs := hb
    cases hb'
    rfl
  subst hbs
  obtain ⟨ebs, h1, h2⟩ := processEventsFrom_blocks opts events initState [] st' ebs hp
  simp only [List.nil_append] at h2
  subst h2
  have hne : ∀ b ∈ ebs, ∀ l ∈ b.lines, l.value ≠ "" :=
    blocksOf_lines_ne opts events initState ebs h1
  have hnemid : ∀ b ∈ addNavDeclaration opts st' ebs, ∀ l ∈ b.lines, l.value ≠ "" := by
    intro b hbmem
    unfold addNavDeclaration at hbmem
    split at hbmem
    · rcases List.mem_cons.mp hbmem with hb0 | hbm
      · subst hb0
        intro l hl
        simp only [navPromiseBlock, Block.make, List.mem_singleton] at hl
        rw [hl, stamp_value]
        decide
      · exact hne b hbm
    · exact hne b hbmem
  have hforall : List.Forall₂ (fun b' b => nonBlank b' = nonBlank b ∧ b.lines <:+ b'.lines)
      (if st'.allFrames.length > 0
        then setFramesPass st'.allFrames (addNavDeclaration opts st' ebs)
        else addNavDeclaration opts st' ebs)
      (addNavDeclaration opts st' ebs) := by
    split
    · exact setFramesPass_forall₂ (addNavDeclaration opts st' ebs) st'.allFrames hnemid
    · exact List.forall₂_same.mpr (fun b _ => ⟨rfl, List.suffix_rfl⟩)
  have hfilter : (postProcess opts st'.allFrames (addNavDeclaration opts st' ebs)).filter
      nonBlank =
      (if st'.allFrames.length > 0
        then setFramesPass st'.allFrames (addNavDeclaration opts st' ebs)
        else addNavDeclaration opts st' ebs).filter nonBlank :=
    postProcess_filter opts st'.allFrames (addNavDeclaration opts st' ebs)
  constructor
  · rw [hfilter, (forall₂_filter_nonBlank _ _ hforall).length_eq]
    have hflag : st'.hasNavigation = events.any (fun e => e.action == "navigation*") := by
      rw [processEventsFrom_hasNavigation opts events initState [] st' ebs hp]
      simp [initState]
    unfold addNavDeclaration
    rw [hflag]
    by_cases hcond :
        (events.any (fun e => e.action == "navigation*") && opts.waitForNavigation) = true
    · rw [if_pos hcond, if_pos hcond, List.filter_cons,
        if_pos (by rw [nonBlank_navPromiseBlock]), List.length_cons,
        blocksOf_count opts events initState ebs h1]
      omega
    · rw [if_neg hcond, if_neg hcond, blocksOf_count opts events initState ebs h1]
      omega
  · rw [hfilter]
    exact forall₂_filter_nonBlank _ _ hforall

/-- C3 witness: the amended theorem at the one-click run under the
defaults. -/
theorem block_count_amended_witness :
    (([blankBlock, clickBlockOf "page" "#go" 0, blankBlock].filter nonBlank).length =
      (if [clickGoEvent].any (fun e => e.action == "navigation*") &&
          defaults.waitForNavigation then 1 else 0) +
      ([clickGoEvent].filter (fun e => producesNonBlankBlock defaults e)).length) ∧
    List.Forall₂ (fun b' b => b.lines <:+ b'.lines)
      ([blankBlock, clickBlockOf "page" "#go" 0, blankBlock].filter nonBlank)
      ((addNavDeclaration defaults initState [clickBlockOf "page" "#go" 0]).filter nonBlank) :=
  block_count_amended defaults [clickGoEvent] initState [clickBlockOf "page" "#go" 0]
    [blankBlock, clickBlockOf "page" "#go" 0, blankBlock] rfl rfl

/-- C1: the frame-declaration pass scans blocks in order, inserts at the
head of a block referencing a still-pending frame id the frame-list
fetch line followed by the frame-resolve line, and deletes the id from
the pending map, so every id it declares was pending and no id is ever
declared twice; on the frame-id sequence `{0, 3, 3, 5}` exactly two
fetch+resolve pairs appear — at the first block referencing id 3 and at
the first block referencing id 5 — and the second id-3 block stays
untouched. -/
theorem frame_declaration_hoisting_correct :
    (∀ (af : List (Nat × String)) (bs : List Block), (setFramesPassIds af bs).Nodup) ∧
    (∀ (af : List (Nat × String)) (bs : List Block) (x : Nat),
      x ∈ setFramesPassIds af bs → (framesLookup af x).isSome) ∧
    (∀ (af : List (Nat × String)) (b : Block) (bs : List Block) (fid : Nat),
      findPendingFrame af b.lines = some fid →
      setFramesPass af (b :: bs) =
        ((b.addLineToTop (resolveFrameLine fid ((framesLookup af fid).getD ""))).addLineToTop
          fetchFramesLine) :: setFramesPass (framesDelete af fid) bs ∧
      ((b.addLineToTop (resolveFrameLine fid ((framesLookup af fid).getD ""))).addLineToTop
          fetchFramesLine).lines =
        (b.addLineToTop (resolveFrameLine fid ((framesLookup af fid).getD ""))).stamp
            fetchFramesLine ::
          b.stamp (resolveFrameLine fid ((framesLookup af fid).getD "")) :: b.lines) ∧
    (∀ (af : List (Nat × String)) (b : Block) (bs : List Block),
      findPendingFrame af b.lines = none →
      setFramesPass af (b :: bs) = b :: setFramesPass af bs) ∧
    pipelineBlocks noBlankOpts
      [frameClickEvent "s0" 0 "", frameClickEvent "s3" 3 "u3",
        frameClickEvent "s3b" 3 "u3", frameClickEvent "s5" 5 "u5"] =
      .ok [clickBlockOf "page" "s0" 0,
        ((clickBlockOf "frame_3" "s3" 3).addLineToTop
          (resolveFrameLine 3 "u3")).addLineToTop fetchFramesLine,
        clickBlockOf "frame_3" "s3b" 3,
        ((clickBlockOf "frame_5" "s5" 5).addLineToTop
          (resolveFrameLine 5 "u5")).addLineToTop fetchFramesLine] ∧
    setFramesPassIds [(3, "u3"), (5, "u5")]
      [clickBlockOf "page" "s0" 0, clickBlockOf "frame_3" "s3" 3,
        clickBlockOf "frame_3" "s3b" 3, clickBlockOf "frame_5" "s5" 5] = [3, 5] := by
  refine ⟨fun af bs => setFramesPassIds_nodup bs af,
    fun af bs x => setFramesPassIds_subset bs af x, ?_, ?_, rfl, rfl⟩
  · intro af b bs fid hf
    rw [setFramesPass_cons, hf]
    exact ⟨rfl, rfl⟩
  · intro af b bs hf
    rw [setFramesPass_cons, hf]

/-- C1 witness: the pending-map membership part and the insertion rule
at the concrete run. -/
theorem frame_declaration_hoisting_correct_witness :
    ((3 : Nat) ∈ setFramesPassIds [(3, "u3"), (5, "u5")]
      [clickBlockOf "page" "s0" 0, clickBlockOf "frame_3" "s3" 3,
        clickBlockOf "frame_3" "s3b" 3, clickBlockOf "frame_5" "s5" 5]) ∧
    (framesLookup [(3, "u3"), (5, "u5")] 3).isSome ∧
    (findPendingFrame [(3, "u3"), (5, "u5")] (clickBlockOf "frame_3" "s3" 3).lines =
      some 3) ∧
    setFramesPass [(3, "u3"), (5, "u5")]
        [clickBlockOf "frame_3" "s3" 3, clickBlockOf "frame_5" "s5" 5] =
      (((clickBlockOf "frame_3" "s3" 3).addLineToTop
          (resolveFrameLine 3 ((framesLookup [(3, "u3"), (5, "u5")] 3).getD ""))).addLineToTop
        fetchFramesLine) ::
        setFramesPass (framesDelete [(3, "u3"), (5, "u5")] 3)
          [clickBlockOf "frame_5" "s5" 5] :=
  ⟨by decide,
   frame_declaration_hoisting_correct.2.1 [(3, "u3"), (5, "u5")]
     [clickBlockOf "page" "s0" 0, clickBlockOf "frame_3" "s3" 3,
       clickBlockOf "frame_3" "s3b" 3, clickBlockOf "frame_5" "s5" 5] 3 (by decide),
   by decide,
   (frame_declaration_hoisting_correct.2.2.1 [(3, "u3"), (5, "u5")]
     (clickBlockOf "frame_3" "s3" 3) [clickBlockOf "frame_5" "s5" 5] 3 (by decide)).1⟩
